import Mathlib

/-!
Verification of the speech2text-scripts media pipeline.

Shallow embedding of the four scripts:
* `cut_audio.py` — chunking an audio stream of total duration `D` ms into
  chunks of `chunk_duration * 60 * 1000` ms each;
* `transcribe_audio.py` — file resolution, engine language option, and the
  SRT/VTT subtitle renderers;
* `video_to_audio.py` — overwrite confirmation and conversion outcome;
* `process_media.py` — the three-stage pipeline orchestrator.

Machine time values are modelled as exact naturals (milliseconds); file-system
and subprocess effects are modelled by explicit oracles (does the input exist,
does a given chunk export succeed, what does the external tool return) and the
functions return records of the observable effects.
-/

namespace SpeechScripts

/-! ## Chunker (`cut_audio.py`) -/

/-- Target chunk length in milliseconds: `chunk_duration * 60 * 1000`
(`cut_audio.py` line 68, `chunk_duration` in minutes). -/
def chunk_duration_ms (chunk_duration : Nat) : Nat := chunk_duration * 60 * 1000

/-- Number of chunks: `math.ceil(total_duration_ms / chunk_duration_ms)`
(`cut_audio.py` line 71), as exact ceiling division on naturals. -/
def num_chunks (total_duration_ms chunk_ms : Nat) : Nat :=
  (total_duration_ms + chunk_ms - 1) / chunk_ms

/-- One chunk as cut by the loop: 1-based index used in the output filename
`part_{i+1:03d}`, and the half-open span `[startMs, endMs)` sliced from the
stream. -/
structure ChunkSpan where
  idx : Nat
  startMs : Nat
  endMs : Nat
deriving Repr, DecidableEq

/-- The spans computed by the cutting loop (`cut_audio.py` lines 78–80):
for 0-based loop variable `i`, `start = i * chunk_duration_ms`,
`end = min ((i+1) * chunk_duration_ms) total_duration_ms`, filename index
`i + 1`. -/
def chunk_spans (total_duration_ms chunk_ms : Nat) : List ChunkSpan :=
  (List.range (num_chunks total_duration_ms chunk_ms)).map fun i =>
    { idx := i + 1
      startMs := i * chunk_ms
      endMs := min ((i + 1) * chunk_ms) total_duration_ms }

/-- Observable outcome of one `cut_audio_file` run: return value, whether the
output directory was created, which 1-based chunk indices were attempted and
which were successfully exported (files on disk), and the reported counts. -/
structure CutResult where
  success : Bool
  dirCreated : Bool
  attempted : List Nat
  written : List Nat
  numChunks : Nat
  successfulChunks : Nat
deriving Repr, DecidableEq

/-- Model of `cut_audio_file` (`cut_audio.py` lines 14–102).  Effects are
driven by oracles: `inputExists` (line 27), `mkdirOk` (line 39), `load`
(lines 47–65, `some D` meaning the stream loaded with `len(audio) = D` ms),
and `exportOk i` telling whether the `chunk.export` of 0-based chunk `i`
succeeds (line 89).  The per-chunk `try/except` catches an export failure and
continues with the next chunk; the function returns `True` iff
`successful_chunks == num_chunks` (lines 97–102). -/
def cut_audio_file (inputExists mkdirOk : Bool) (load : Option Nat)
    (chunk_ms : Nat) (exportOk : Nat → Bool) : CutResult :=
  if !inputExists then ⟨false, false, [], [], 0, 0⟩
  else if !mkdirOk then ⟨false, false, [], [], 0, 0⟩
  else
    match load with
    | none => ⟨false, true, [], [], 0, 0⟩
    | some total_duration_ms =>
      let N := num_chunks total_duration_ms chunk_ms
      let attempted := (List.range N).map (fun i => i + 1)
      let written := ((List.range N).filter (fun i => exportOk i)).map (fun i => i + 1)
      ⟨written.length == N, true, attempted, written, N, written.length⟩

/-- The ceiling division never undershoots: `D ≤ num_chunks D Tms * Tms`. -/
theorem le_num_chunks_mul (D Tms : Nat) (hTms : 0 < Tms) :
    D ≤ num_chunks D Tms * Tms := by
  unfold num_chunks
  have h := Nat.div_add_mod (D + Tms - 1) Tms
  rw [Nat.mul_comm] at h
  have hr := Nat.mod_lt (D + Tms - 1) hTms
  generalize hP : (D + Tms - 1) / Tms * Tms = P at h ⊢
  omega

/-- Every chunk before the last ends strictly inside the stream:
`i < num_chunks D Tms → i * Tms < D`. -/
theorem mul_lt_of_lt_num_chunks {D Tms i : Nat} (hTms : 0 < Tms)
    (hi : i < num_chunks D Tms) : i * Tms < D := by
  unfold num_chunks at hi
  have h4 : i * Tms + Tms ≤ D + Tms - 1 := by
    calc i * Tms + Tms = (i + 1) * Tms := by ring
    _ ≤ (D + Tms - 1) / Tms * Tms := Nat.mul_le_mul_right Tms hi
    _ ≤ D + Tms - 1 := Nat.div_mul_le_self _ _
  omega

/-- With a positive duration the chunker always produces at least one chunk. -/
theorem num_chunks_pos {D Tms : Nat} (hD : 0 < D) (hTms : 0 < Tms) :
    0 < num_chunks D Tms := by
  by_contra h
  have h0 : num_chunks D Tms = 0 := by omega
  have := le_num_chunks_mul D Tms hTms
  rw [h0] at this
  omega

/-- C1: for every positive total duration `D` (ms) and positive chunk duration
`T` (minutes), the chunker produces exactly `N = ceil(D / (T*60000))` chunks
(characterised by `(N-1)*Tms < D ≤ N*Tms`), numbered densely `1..N`; chunk `i`
(1-based) spans `(i-1)*Tms` to `min (i*Tms) D` with nonempty span, consecutive
spans are contiguous (hence non-overlapping), the first span starts at `0` and
the last ends exactly at `D`, so the concatenation of the spans reconstructs
`[0, D)`. -/
theorem chunker_partitions_stream (D T : Nat) (hD : 0 < D) (hT : 0 < T) :
    (chunk_spans D (chunk_duration_ms T)).length = num_chunks D (chunk_duration_ms T) ∧
    (num_chunks D (chunk_duration_ms T) - 1) * chunk_duration_ms T < D ∧
    D ≤ num_chunks D (chunk_duration_ms T) * chunk_duration_ms T ∧
    (chunk_spans D (chunk_duration_ms T)).map ChunkSpan.idx
      = List.range' 1 (num_chunks D (chunk_duration_ms T)) ∧
    (∀ c ∈ chunk_spans D (chunk_duration_ms T),
      c.startMs = (c.idx - 1) * chunk_duration_ms T ∧
      c.endMs = min (c.idx * chunk_duration_ms T) D ∧
      c.startMs < c.endMs) ∧
    List.Chain' (fun a b => a.endMs = b.startMs) (chunk_spans D (chunk_duration_ms T)) ∧
    ((chunk_spans D (chunk_duration_ms T)).map ChunkSpan.startMs).head? = some 0 ∧
    ((chunk_spans D (chunk_duration_ms T)).map ChunkSpan.endMs).getLast? = some D := by
  set Tms := chunk_duration_ms T with hTmsdef
  have hTms : 0 < Tms := by
    simp only [hTmsdef, chunk_duration_ms]
    positivity
  set N := num_chunks D Tms with hNdef
  have hN : 0 < N := num_chunks_pos hD hTms
  obtain ⟨M, hM⟩ : ∃ M, N = M + 1 := ⟨N - 1, by omega⟩
  have hM' : num_chunks D Tms = M + 1 := by rw [← hNdef]; exact hM
  refine ⟨?_, ?_, ?_, ?_, ?_, ?_, ?_, ?_⟩
  · simp [chunk_spans]
  · exact mul_lt_of_lt_num_chunks hTms (by omega)
  · exact le_num_chunks_mul D Tms hTms
  · rw [chunk_spans, List.map_map, List.range'_eq_map_range]
    exact List.map_congr_left fun i _ => by simp [Nat.add_comm]
  · intro c hc
    rw [chunk_spans, List.mem_map] at hc
    obtain ⟨i, hi, rfl⟩ := hc
    rw [List.mem_range] at hi
    refine ⟨by simp, rfl, ?_⟩
    have h1 : i * Tms < D := mul_lt_of_lt_num_chunks hTms hi
    have h2 : i * Tms < (i + 1) * Tms :=
      (Nat.mul_lt_mul_right hTms).mpr (Nat.lt_succ_self i)
    simpa using lt_min h2 h1
  · rw [chunk_spans, List.chain'_map, hM', ← Nat.succ_eq_add_one,
      List.chain'_range_succ]
    intro m hm
    simp only
    have hlt : (m + 1) * Tms < D := mul_lt_of_lt_num_chunks hTms (by omega)
    simp [Nat.min_eq_left (Nat.le_of_lt hlt)]
  · rw [chunk_spans, hM', List.range_succ_eq_map]
    simp
  · have hle : D ≤ (M + 1) * Tms := by
      rw [← hM']
      exact le_num_chunks_mul D Tms hTms
    rw [chunk_spans, hM', List.range_succ, List.map_append, List.map_append]
    simp [List.getLast?_concat, Nat.min_eq_right hle]

/-- C1 witness: a 90-second stream cut into 1-minute chunks. -/
theorem chunker_partitions_stream_witness :
    0 < 90000 ∧ 0 < 1 ∧
    ((chunk_spans 90000 (chunk_duration_ms 1)).length = num_chunks 90000 (chunk_duration_ms 1) ∧
    (num_chunks 90000 (chunk_duration_ms 1) - 1) * chunk_duration_ms 1 < 90000 ∧
    90000 ≤ num_chunks 90000 (chunk_duration_ms 1) * chunk_duration_ms 1 ∧
    (chunk_spans 90000 (chunk_duration_ms 1)).map ChunkSpan.idx
      = List.range' 1 (num_chunks 90000 (chunk_duration_ms 1)) ∧
    (∀ c ∈ chunk_spans 90000 (chunk_duration_ms 1),
      c.startMs = (c.idx - 1) * chunk_duration_ms 1 ∧
      c.endMs = min (c.idx * chunk_duration_ms 1) 90000 ∧
      c.startMs < c.endMs) ∧
    List.Chain' (fun a b => a.endMs = b.startMs) (chunk_spans 90000 (chunk_duration_ms 1)) ∧
    ((chunk_spans 90000 (chunk_duration_ms 1)).map ChunkSpan.startMs).head? = some 0 ∧
    ((chunk_spans 90000 (chunk_duration_ms 1)).map ChunkSpan.endMs).getLast? = some 90000) :=
  ⟨by decide, by decide, chunker_partitions_stream 90000 1 (by decide) (by decide)⟩

/-- C2 counterexample: on a loaded stream of duration `D = 0` the code computes
`num_chunks = 0`, runs the loop zero times, and then `0 == 0` makes it return
`True` — it reports success, not failure as the claim states. -/
theorem cut_zero_duration_counterexample :
    (cut_audio_file true true (some 0) 600000 (fun _ => true)).numChunks = 0 ∧
    (cut_audio_file true true (some 0) 600000 (fun _ => true)).success = true := by
  exact ⟨rfl, rfl⟩

/-- C2 amended: when the loaded stream has total duration `D = 0`, the chunker
produces zero chunks, writes no files, and returns success (since
`successful_chunks = 0 = num_chunks`), for every chunk length and export
oracle. -/
theorem cut_zero_duration_succeeds (chunk_ms : Nat) (exportOk : Nat → Bool) :
    (cut_audio_file true true (some 0) chunk_ms exportOk).numChunks = 0 ∧
    (cut_audio_file true true (some 0) chunk_ms exportOk).written = [] ∧
    (cut_audio_file true true (some 0) chunk_ms exportOk).success = true := by
  have h : num_chunks 0 chunk_ms = 0 := by
    unfold num_chunks
    rcases Nat.eq_zero_or_pos chunk_ms with h | h
    · subst h; rfl
    · exact Nat.div_eq_of_lt (by omega)
  simp [cut_audio_file, h]

/-- C3: on a loaded stream the chunker attempts every one of the `N` computed
chunks (an export failure never aborts the loop), reports as
`successfulChunks` exactly the number of successful exports, returns success
iff that count equals `N`, and the file of chunk `i+1` is on disk iff its
export succeeded — independently of the overall result. -/
theorem cut_partial_failure_accounting (D chunk_ms : Nat) (exportOk : Nat → Bool)
    (_hT : 0 < chunk_ms) :
    (cut_audio_file true true (some D) chunk_ms exportOk).numChunks
        = num_chunks D chunk_ms ∧
    (cut_audio_file true true (some D) chunk_ms exportOk).attempted
        = (List.range (num_chunks D chunk_ms)).map (fun i => i + 1) ∧
    (cut_audio_file true true (some D) chunk_ms exportOk).successfulChunks
        = ((List.range (num_chunks D chunk_ms)).filter (fun i => exportOk i)).length ∧
    ((cut_audio_file true true (some D) chunk_ms exportOk).success = true ↔
      (cut_audio_file true true (some D) chunk_ms exportOk).successfulChunks
        = num_chunks D chunk_ms) ∧
    (∀ i, (i + 1) ∈ (cut_audio_file true true (some D) chunk_ms exportOk).written ↔
      i < num_chunks D chunk_ms ∧ exportOk i = true) := by
  refine ⟨rfl, rfl, ?_, ?_, ?_⟩
  · simp [cut_audio_file]
  · simp [cut_audio_file]
  · intro i
    simp [cut_audio_file, List.mem_filter, List.mem_map, List.mem_range]

/-- C3 witness: a 150-second stream in 1-minute chunks (3 chunks) where the
export of chunk 2 fails: 2 of 3 succeed, overall failure, files 1 and 3 on
disk. -/
theorem cut_partial_failure_accounting_witness :
    0 < 60000 ∧
    ((cut_audio_file true true (some 150000) 60000 (fun i => i != 1)).numChunks
        = num_chunks 150000 60000 ∧
    (cut_audio_file true true (some 150000) 60000 (fun i => i != 1)).attempted
        = (List.range (num_chunks 150000 60000)).map (fun i => i + 1) ∧
    (cut_audio_file true true (some 150000) 60000 (fun i => i != 1)).successfulChunks
        = ((List.range (num_chunks 150000 60000)).filter (fun i => (fun i => i != 1) i)).length ∧
    ((cut_audio_file true true (some 150000) 60000 (fun i => i != 1)).success = true ↔
      (cut_audio_file true true (some 150000) 60000 (fun i => i != 1)).successfulChunks
        = num_chunks 150000 60000) ∧
    (∀ i, (i + 1) ∈ (cut_audio_file true true (some 150000) 60000 (fun i => i != 1)).written ↔
      i < num_chunks 150000 60000 ∧ (fun i => i != 1) i = true)) :=
  ⟨by decide, cut_partial_failure_accounting 150000 60000 (fun i => i != 1) (by decide)⟩

/-! ## Transcriber engine options (`transcribe_audio.py` lines 82–84) -/

/-- Model of the engine call options: `transcribe_options = {}` and
`if language != "auto": transcribe_options["language"] = language`.  The
`language` key passed to `whisper_model.transcribe`, or `none` when the key
is omitted. -/
def transcribe_options (language : String) : Option String :=
  if language ≠ "auto" then some language else none

/-- C6: the sentinel `"auto"` makes the language option be omitted from the
engine call (never passed literally); every other configured language code is
passed through exactly. -/
theorem transcriber_language_option (language : String) (h : language ≠ "auto") :
    transcribe_options "auto" = none ∧
    transcribe_options language = some language ∧
    (∀ l : String, transcribe_options l ≠ some "auto") := by
  refine ⟨by simp [transcribe_options], by simp [transcribe_options, h], ?_⟩
  intro l
  unfold transcribe_options
  split
  · simp_all
  · simp

/-- C6 witness at the concrete language code `"en"`. -/
theorem transcriber_language_option_witness :
    ("en" : String) ≠ "auto" ∧
    (transcribe_options "auto" = none ∧
    transcribe_options "en" = some "en" ∧
    (∀ l : String, transcribe_options l ≠ some "auto")) :=
  ⟨by decide, transcriber_language_option "en" (by decide)⟩

/-! ## Time formatters (`transcribe_audio.py` lines 155–167)

Segment times are modelled as exact naturals in milliseconds (`tms`), so the
Python float `seconds` is `tms / 1000`; `int(seconds // 3600)` is
`tms / 3600000`, `int(seconds % 3600 // 60)` is `tms % 3600000 / 60000`, and
the `{:06.3f}`-formatted remainder `seconds % 60` has integral part
`tms % 60000 / 1000` (two zero-padded digits) and fractional part
`tms % 1000` (exactly three digits). -/

/-- Decimal digit characters of `n` (the rendering of a Python `{:d}` field),
fuel-based so that terms reduce structurally. -/
def natDigitsAux : Nat → Nat → List Char
  | 0, _ => []
  | fuel + 1, n =>
    if n < 10 then [Nat.digitChar n]
    else natDigitsAux fuel (n / 10) ++ [Nat.digitChar (n % 10)]

/-- Decimal representation of `n`. -/
def natDigits (n : Nat) : List Char := natDigitsAux (n + 1) n

/-- Python zero-padding to minimum width `w` (the `0w` in a format spec):
never truncates, so wider numbers keep all their digits. -/
def zfill (w : Nat) (s : List Char) : List Char :=
  List.replicate (w - s.length) '0' ++ s

/-- Characters of the f-string
`f"{hours:02d}:{minutes:02d}:{seconds:06.3f}"` shared by both formatters
(`transcribe_audio.py` lines 160 and 167). -/
def format_time_chars (tms : Nat) : List Char :=
  zfill 2 (natDigits (tms / 3600000)) ++ [':'] ++
  zfill 2 (natDigits (tms % 3600000 / 60000)) ++ [':'] ++
  zfill 2 (natDigits (tms % 60000 / 1000)) ++ ['.'] ++
  zfill 3 (natDigits (tms % 1000))

/-- `format_time_vtt` (lines 162–167): `HH:MM:SS.mmm`. -/
def format_time_vtt (tms : Nat) : String := ⟨format_time_chars tms⟩

/-- The character replacement done by `replace(".", ",")`. -/
def dot_to_comma (c : Char) : Char := if c = '.' then ',' else c

/-- The inverse replacement, turning a comma back into a period. -/
def comma_to_dot (c : Char) : Char := if c = ',' then '.' else c

/-- `format_time_srt` (lines 155–160): the same f-string followed by
`.replace(".", ",")`, i.e. every period replaced by a comma. -/
def format_time_srt (tms : Nat) : String :=
  ⟨(format_time_chars tms).map dot_to_comma⟩

/-- Every character produced by `natDigitsAux` is a decimal digit char. -/
theorem natDigitsAux_mem (fuel n : Nat) :
    ∀ c ∈ natDigitsAux fuel n, ∃ d, d < 10 ∧ c = Nat.digitChar d := by
  induction fuel generalizing n with
  | zero => simp [natDigitsAux]
  | succ f ih =>
    intro c hc
    unfold natDigitsAux at hc
    split at hc
    · rename_i h
      simp only [List.mem_singleton] at hc
      exact ⟨n, h, hc⟩
    · rw [List.mem_append] at hc
      rcases hc with hc | hc
      · exact ih _ c hc
      · simp only [List.mem_singleton] at hc
        exact ⟨n % 10, Nat.mod_lt _ (by omega), hc⟩

/-- The ten digit characters. -/
theorem digitChar_mem_digits {d : Nat} (h : d < 10) :
    Nat.digitChar d
      ∈ (['0', '1', '2', '3', '4', '5', '6', '7', '8', '9'] : List Char) := by
  interval_cases d <;> decide

/-- Digit characters are not periods, commas, or newlines. -/
theorem natDigits_not_special (n : Nat) :
    ∀ c ∈ natDigits n, c ≠ '.' ∧ c ≠ ',' ∧ c ≠ '\n' := by
  intro c hc
  obtain ⟨d, hd, rfl⟩ := natDigitsAux_mem _ _ c hc
  have hmem := digitChar_mem_digits hd
  have hforall :
      ∀ x ∈ (['0', '1', '2', '3', '4', '5', '6', '7', '8', '9'] : List Char),
        x ≠ '.' ∧ x ≠ ',' ∧ x ≠ '\n' := by decide
  exact hforall _ hmem

/-- No character of a zero-padded digit field is a period, comma, or
newline. -/
theorem zfill_not_special (w n : Nat) :
    ∀ c ∈ zfill w (natDigits n), c ≠ '.' ∧ c ≠ ',' ∧ c ≠ '\n' := by
  intro c hc
  rw [zfill, List.mem_append] at hc
  rcases hc with hc | hc
  · rw [List.eq_of_mem_replicate hc]
    decide
  · exact natDigits_not_special n c hc

/-- Mapping the period-to-comma replacement over dot-free characters is the
identity. -/
theorem replace_dot_eq_self {l : List Char} (h : ∀ c ∈ l, c ≠ '.') :
    l.map dot_to_comma = l := by
  induction l with
  | nil => rfl
  | cons a t ih =>
    have ha := h a (List.mem_cons_self a t)
    have ht := ih fun c hc => h c (List.mem_cons_of_mem a hc)
    simp [dot_to_comma, ha, ht]

/-- With fuel available, a single-digit number renders as one character. -/
theorem natDigitsAux_small {fuel n : Nat} (h0 : 0 < fuel) (h : n < 10) :
    natDigitsAux fuel n = [Nat.digitChar n] := by
  cases fuel with
  | zero => omega
  | succ f => simp [natDigitsAux, h]

/-- A number below 100 renders as at most two characters. -/
theorem natDigits_length_le_two {n : Nat} (h : n < 100) :
    (natDigits n).length ≤ 2 := by
  unfold natDigits
  by_cases h10 : n < 10
  · rw [natDigitsAux_small (by omega) h10]
    simp
  · have hn : n + 1 = (n - 1) + 2 := by omega
    rw [hn]
    unfold natDigitsAux
    rw [if_neg h10, natDigitsAux_small (by omega) (by omega)]
    simp

/-- A number below 1000 renders as at most three characters. -/
theorem natDigits_length_le_three {n : Nat} (h : n < 1000) :
    (natDigits n).length ≤ 3 := by
  by_cases h100 : n < 100
  · exact Nat.le_trans (natDigits_length_le_two h100) (by omega)
  · unfold natDigits
    have hn : n + 1 = (n - 1) + 2 := by omega
    rw [hn]
    unfold natDigitsAux
    rw [if_neg (by omega)]
    have hq10 : ¬ n / 10 < 10 := by omega
    have hn2 : n - 1 = (n - 2) + 1 := by omega
    rw [hn2]
    unfold natDigitsAux
    rw [if_neg hq10, natDigitsAux_small (by omega) (by omega)]
    simp

/-- The zero-padded field has width exactly `w` when the number fits, and
always at least `w`. -/
theorem zfill_length (w : Nat) (s : List Char) :
    (zfill w s).length = max w s.length := by
  simp [zfill]
  omega

/-- C4: for every non-negative segment time (in exact milliseconds), both
renderers compute hours, minutes and seconds by floor division — the four
rendered fields recompose to the input exactly, with minutes and seconds
below 60 and milliseconds below 1000 — and emit
`HH:MM:SS,mmm` (SRT, comma) resp. `HH:MM:SS.mmm` (VTT, period) with fields
zero-padded to 2/2/2/3 digits and hours unbounded; `125.5` seconds renders
as `00:02:05,500` (SRT) and `00:02:05.500` (VTT), and a 100-hour time keeps
all three hour digits. -/
theorem time_formatters_floor_division (tms : Nat) :
    tms = ((tms / 3600000 * 60 + tms % 3600000 / 60000) * 60 + tms % 60000 / 1000) * 1000
            + tms % 1000 ∧
    tms % 3600000 / 60000 < 60 ∧ tms % 60000 / 1000 < 60 ∧ tms % 1000 < 1000 ∧
    format_time_vtt tms
      = ⟨zfill 2 (natDigits (tms / 3600000)) ++ [':'] ++
          zfill 2 (natDigits (tms % 3600000 / 60000)) ++ [':'] ++
          zfill 2 (natDigits (tms % 60000 / 1000)) ++ ['.'] ++
          zfill 3 (natDigits (tms % 1000))⟩ ∧
    format_time_srt tms
      = ⟨zfill 2 (natDigits (tms / 3600000)) ++ [':'] ++
          zfill 2 (natDigits (tms % 3600000 / 60000)) ++ [':'] ++
          zfill 2 (natDigits (tms % 60000 / 1000)) ++ [','] ++
          zfill 3 (natDigits (tms % 1000))⟩ ∧
    2 ≤ (zfill 2 (natDigits (tms / 3600000))).length ∧
    (zfill 2 (natDigits (tms % 3600000 / 60000))).length = 2 ∧
    (zfill 2 (natDigits (tms % 60000 / 1000))).length = 2 ∧
    (zfill 3 (natDigits (tms % 1000))).length = 3 ∧
    format_time_srt 125500 = "00:02:05,500" ∧
    format_time_vtt 125500 = "00:02:05.500" ∧
    format_time_vtt 360000000 = "100:00:00.000" := by
  refine ⟨by omega, by omega, by omega, by omega, rfl, ?_, ?_, ?_, ?_, ?_,
    by decide, by decide, by decide⟩
  · unfold format_time_srt format_time_chars
    apply congrArg
    have hA := replace_dot_eq_self fun c hc =>
      (zfill_not_special 2 (tms / 3600000) c hc).1
    have hB := replace_dot_eq_self fun c hc =>
      (zfill_not_special 2 (tms % 3600000 / 60000) c hc).1
    have hC := replace_dot_eq_self fun c hc =>
      (zfill_not_special 2 (tms % 60000 / 1000) c hc).1
    have hE := replace_dot_eq_self fun c hc =>
      (zfill_not_special 3 (tms % 1000) c hc).1
    simp only [List.map_append, hA, hB, hC, hE]
    rfl
  · rw [zfill_length]
    omega
  · rw [zfill_length]
    have := natDigits_length_le_two (n := tms % 3600000 / 60000) (by omega)
    omega
  · rw [zfill_length]
    have := natDigits_length_le_two (n := tms % 60000 / 1000) (by omega)
    omega
  · rw [zfill_length]
    have := natDigits_length_le_three (n := tms % 1000) (by omega)
    omega

/-! ## Subtitle renderers (`transcribe_audio.py` lines 131–153) -/

/-- A time-aligned transcript segment produced by the engine, times in exact
milliseconds. -/
structure TranscriptSegment where
  startMs : Nat
  endMs : Nat
  text : String
deriving Repr, DecidableEq

/-- One SRT block (`generate_srt` loop body, line 139):
`f"{i}\n{start_time} --> {end_time}\n{text}\n\n"` with 1-based sequence
number `i` and stripped text. -/
def srt_block (i : Nat) (seg : TranscriptSegment) : String :=
  ⟨natDigits i⟩ ++ "\n" ++ format_time_srt seg.startMs ++ " --> " ++
    format_time_srt seg.endMs ++ "\n" ++ seg.text.trim ++ "\n\n"

/-- The SRT blocks of a segment list with sequence numbers counted from `i`
(the loop enumerates from 1). -/
def srt_blocks : Nat → List TranscriptSegment → List String
  | _, [] => []
  | i, seg :: rest => srt_block i seg :: srt_blocks (i + 1) rest

/-- `generate_srt` (lines 131–141): the accumulated concatenation of the
blocks for the segments enumerated from 1. -/
def generate_srt (segments : List TranscriptSegment) : String :=
  String.join (srt_blocks 1 segments)

/-- One VTT block (`generate_vtt` loop body, line 151): like an SRT block but
with no sequence-number line and period time separators. -/
def vtt_block (seg : TranscriptSegment) : String :=
  format_time_vtt seg.startMs ++ " --> " ++ format_time_vtt seg.endMs ++ "\n" ++
    seg.text.trim ++ "\n\n"

/-- `generate_vtt` (lines 143–153): the `WEBVTT` header line and a blank
line, then the accumulated concatenation of the blocks. -/
def generate_vtt (segments : List TranscriptSegment) : String :=
  "WEBVTT\n\n" ++ String.join (segments.map vtt_block)

/-- Drop everything up to and including the first newline. -/
def dropFirstLine : List Char → List Char
  | [] => []
  | c :: rest => if c = '\n' then rest else dropFirstLine rest

/-- Apply the comma-to-period replacement to the first line only, leaving
the newline and everything after it untouched. -/
def commasToDotsFirstLine : List Char → List Char
  | [] => []
  | c :: rest =>
    if c = '\n' then c :: rest
    else comma_to_dot c :: commasToDotsFirstLine rest

/-- The transformation named by the claim: remove the block's leading
sequence-number line and replace each comma decimal separator of the now
leading timestamp line by a period. -/
def srt_block_to_vtt (b : String) : String :=
  ⟨commasToDotsFirstLine (dropFirstLine b.data)⟩

/-- Dropping the first line skips exactly a newline-free leading part. -/
theorem dropFirstLine_append {A R : List Char} (h : ∀ c ∈ A, c ≠ '\n') :
    dropFirstLine (A ++ '\n' :: R) = R := by
  induction A with
  | nil => simp [dropFirstLine]
  | cons a t ih =>
    have ha := h a (List.mem_cons_self a t)
    simp only [List.cons_append, dropFirstLine, if_neg ha]
    exact ih fun c hc => h c (List.mem_cons_of_mem a hc)

/-- The first-line replacement maps a newline-free leading part and leaves
the rest untouched. -/
theorem commasToDotsFirstLine_append {B R : List Char} (h : ∀ c ∈ B, c ≠ '\n') :
    commasToDotsFirstLine (B ++ '\n' :: R) = B.map comma_to_dot ++ '\n' :: R := by
  induction B with
  | nil => simp [commasToDotsFirstLine]
  | cons a t ih =>
    have ha := h a (List.mem_cons_self a t)
    simp only [List.cons_append, commasToDotsFirstLine, if_neg ha, List.map_cons,
      List.append_eq]
    rw [ih fun c hc => h c (List.mem_cons_of_mem a hc)]

/-- Comma-to-period is a left inverse of period-to-comma on comma-free
characters. -/
theorem comma_dot_cancel {l : List Char} (h : ∀ c ∈ l, c ≠ ',') :
    (l.map dot_to_comma).map comma_to_dot = l := by
  induction l with
  | nil => rfl
  | cons a t ih =>
    have ha := h a (List.mem_cons_self a t)
    have ht := ih fun c hc => h c (List.mem_cons_of_mem a hc)
    by_cases hdot : a = '.'
    · subst hdot
      simp [dot_to_comma, comma_to_dot, ht]
    · simp [dot_to_comma, comma_to_dot, hdot, ha, ht]

/-- The raw time field contains neither commas nor newlines. -/
theorem format_time_chars_not_special (tms : Nat) :
    ∀ c ∈ format_time_chars tms, c ≠ ',' ∧ c ≠ '\n' := by
  intro c hc
  unfold format_time_chars at hc
  simp only [List.append_assoc, List.mem_append, List.mem_singleton] at hc
  rcases hc with hc | hc | hc | hc | hc | hc | hc
  · exact ⟨(zfill_not_special _ _ c hc).2.1, (zfill_not_special _ _ c hc).2.2⟩
  · subst hc; exact ⟨by decide, by decide⟩
  · exact ⟨(zfill_not_special _ _ c hc).2.1, (zfill_not_special _ _ c hc).2.2⟩
  · subst hc; exact ⟨by decide, by decide⟩
  · exact ⟨(zfill_not_special _ _ c hc).2.1, (zfill_not_special _ _ c hc).2.2⟩
  · subst hc; exact ⟨by decide, by decide⟩
  · exact ⟨(zfill_not_special _ _ c hc).2.1, (zfill_not_special _ _ c hc).2.2⟩

/-- The SRT-formatted time contains no newline. -/
theorem srt_time_chars_no_newline (tms : Nat) :
    ∀ c ∈ (format_time_srt tms).data, c ≠ '\n' := by
  intro c hc
  have hc' : c ∈ (format_time_chars tms).map dot_to_comma := hc
  rw [List.mem_map] at hc'
  obtain ⟨a, ha, rfl⟩ := hc'
  have hna := (format_time_chars_not_special tms a ha).2
  unfold dot_to_comma
  split
  · decide
  · exact hna

/-- Replacing commas by periods on an SRT time recovers the VTT time. -/
theorem srt_time_cancel (tms : Nat) :
    (format_time_srt tms).data.map comma_to_dot = (format_time_vtt tms).data :=
  comma_dot_cancel fun c hc => (format_time_chars_not_special tms c hc).1

/-- The claim's transformation of the `i`-th SRT block is exactly the VTT
block of the same segment. -/
theorem srt_block_to_vtt_correct (i : Nat) (seg : TranscriptSegment) :
    srt_block_to_vtt (srt_block i seg) = vtt_block seg := by
  apply String.ext
  have hnl : ("\n" : String).data = ['\n'] := by decide
  have hnl2 : ("\n\n" : String).data = ['\n', '\n'] := by decide
  have hblock : (srt_block i seg).data
      = natDigits i ++ '\n' ::
          (((format_time_srt seg.startMs).data ++ " --> ".data ++
            (format_time_srt seg.endMs).data) ++ '\n' ::
            (seg.text.trim.data ++ ['\n', '\n'])) := by
    simp [srt_block, String.data_append, hnl, hnl2, List.append_assoc]
  have hB : ∀ c ∈ (format_time_srt seg.startMs).data ++ " --> ".data ++
      (format_time_srt seg.endMs).data, c ≠ '\n' := by
    intro c hc
    simp only [List.append_assoc, List.mem_append] at hc
    rcases hc with hc | hc | hc
    · exact srt_time_chars_no_newline _ c hc
    · have harr : ∀ x ∈ " --> ".data, x ≠ '\n' := by decide
      exact harr c hc
    · exact srt_time_chars_no_newline _ c hc
  have harrowmap : " --> ".data.map comma_to_dot = " --> ".data := by decide
  show commasToDotsFirstLine (dropFirstLine (srt_block i seg).data)
      = (vtt_block seg).data
  rw [hblock,
    dropFirstLine_append fun c hc => (natDigits_not_special i c hc).2.2,
    commasToDotsFirstLine_append hB, List.map_append, List.map_append,
    srt_time_cancel, srt_time_cancel, harrowmap]
  simp [vtt_block, String.data_append, hnl, hnl2, List.append_assoc]

/-- Transforming every SRT block yields exactly the VTT block list. -/
theorem srt_blocks_map_to_vtt (segments : List TranscriptSegment) :
    ∀ i, (srt_blocks i segments).map srt_block_to_vtt
      = segments.map vtt_block := by
  induction segments with
  | nil => intro i; rfl
  | cons s t ih =>
    intro i
    simp only [srt_blocks, List.map_cons, srt_block_to_vtt_correct, ih (i + 1)]

/-- C10: the VTT renderer's output is the string `"WEBVTT\n\n"` followed by
the SRT renderer's blocks, in the same order and number, each block with its
leading sequence-number line removed and each comma decimal separator of its
timestamp line replaced by a period; the trimmed text lines are identical. -/
theorem vtt_is_transformed_srt (segments : List TranscriptSegment) :
    generate_srt segments = String.join (srt_blocks 1 segments) ∧
    (srt_blocks 1 segments).length = segments.length ∧
    generate_vtt segments
      = "WEBVTT\n\n" ++ String.join ((srt_blocks 1 segments).map srt_block_to_vtt) := by
  refine ⟨rfl, ?_, ?_⟩
  · have h := congrArg List.length (srt_blocks_map_to_vtt segments 1)
    simpa using h
  · rw [srt_blocks_map_to_vtt segments 1]
    rfl

/-! ## Converter (`video_to_audio.py`) -/

/-- Embedding of the Python string method `lower()` used on the interactive
response at `video_to_audio.py` line 39: per-character lowercasing. -/
def str_lower (s : String) : String := ⟨s.data.map Char.toLower⟩

/-- Observable outcome of one `convert_video_to_audio` run: return value,
whether the overwrite prompt was shown, whether the external tool was
invoked, and whether the output file was (re)written. -/
structure ConvertResult where
  success : Bool
  promptShown : Bool
  ffmpegInvoked : Bool
  outputWritten : Bool
deriving Repr, DecidableEq

/-- Model of `convert_video_to_audio` (`video_to_audio.py` lines 13–74).
Oracles: `inputExists` (line 26), `outputExists` (line 37), the interactive
`response` string read at line 38, and `ffmpeg` — `none` when the tool is
absent (`FileNotFoundError`), `some rc0` when it runs with `rc0` telling
whether the exit status was zero.  When the output exists and
`response.lower() != "y"` the function returns `False` before building the
command (lines 38–41): the tool is not invoked and the file is untouched. -/
def convert_video_to_audio (inputExists outputExists : Bool) (response : String)
    (ffmpeg : Option Bool) : ConvertResult :=
  if !inputExists then ⟨false, false, false, false⟩
  else if outputExists && !(str_lower response == "y") then ⟨false, true, false, false⟩
  else
    match ffmpeg with
    | none => ⟨false, outputExists, true, false⟩
    | some rc0 => ⟨rc0, outputExists, true, rc0⟩

/-- C7: whenever the output file already exists, the overwrite prompt is shown
before any conversion; and if the confirmation is declined (the response does
not lower-case to `"y"`), the external tool is never invoked, the existing
output file is left unchanged, and the function returns a non-success
result. -/
theorem converter_overwrite_confirmation (response : String) (ffmpeg : Option Bool)
    (hdecline : str_lower response ≠ "y") :
    (∀ (resp : String) (ff : Option Bool),
      (convert_video_to_audio true true resp ff).promptShown = true) ∧
    (convert_video_to_audio true true response ffmpeg).success = false ∧
    (convert_video_to_audio true true response ffmpeg).ffmpegInvoked = false ∧
    (convert_video_to_audio true true response ffmpeg).outputWritten = false := by
  have hb : (str_lower response == "y") = false := by
    simpa using hdecline
  refine ⟨?_, ?_, ?_, ?_⟩
  · intro resp ff
    unfold convert_video_to_audio
    cases hr : (str_lower resp == "y") with
    | false => simp [hr]
    | true =>
      cases ff <;> simp [hr]
  all_goals simp [convert_video_to_audio, hb]

/-- C7 witness: output exists, response `"n"`, tool available and would
succeed. -/
theorem converter_overwrite_confirmation_witness :
    str_lower "n" ≠ "y" ∧
    ((∀ (resp : String) (ff : Option Bool),
      (convert_video_to_audio true true resp ff).promptShown = true) ∧
    (convert_video_to_audio true true "n" (some true)).success = false ∧
    (convert_video_to_audio true true "n" (some true)).ffmpegInvoked = false ∧
    (convert_video_to_audio true true "n" (some true)).outputWritten = false) :=
  ⟨by decide, converter_overwrite_confirmation "n" (some true) (by decide)⟩

/-! ## Transcriber file resolution (`transcribe_audio.py` lines 33–51) -/

/-- The glob patterns of `transcribe_audio.py` line 35, each represented by
the suffix it matches: `fnmatch` translates `*.mp3` to "any characters
followed by `.mp3`", and on a POSIX filesystem `Path.glob` matches
case-sensitively. -/
def audio_extensions : List String := [".mp3", ".wav", ".m4a", ".flac", ".aac"]

/-- Whether a directory entry name matches the pattern for suffix `ext`
(case-sensitive suffix match, as `Path.glob` does on POSIX). -/
def glob_match (ext name : String) : Bool := ext.data.isSuffixOf name.data

/-- The comparison used by `audio_files.sort()`: lexicographic string order
(Python compares the paths' name strings by code point). -/
def string_le (a b : String) : Bool := decide (a ≤ b)

/-- Model of the directory branch of `transcribe_audio_files` (lines 33–51):
for each extension pattern in order, extend the result with the entries of
the directory listing that match it (in enumeration order), then sort the
whole list. -/
def resolve_audio_files (listing : List String) : List String :=
  (audio_extensions.flatMap fun ext => listing.filter fun n => glob_match ext n).mergeSort
    string_le

/-- The matcher the claim describes: the extension matches one of the five
known ones case-insensitively.  This follows the claim's words (not the
code) and exists only to be compared against `resolve_audio_files`. -/
def claim_extension_match (name : String) : Bool :=
  audio_extensions.any fun ext => glob_match ext (str_lower name)

/-- C5 counterexample: a directory containing the single file `A.MP3`.  Its
extension matches `mp3` case-insensitively, yet the code's `Path.glob`
matching is case-sensitive and resolves no file at all, so the set of files
processed is not the claimed one. -/
theorem resolver_case_sensitivity_counterexample :
    claim_extension_match "A.MP3" = true ∧
    resolve_audio_files ["A.MP3"] = [] := by
  refine ⟨by decide, ?_⟩
  have h : (audio_extensions.flatMap
      fun ext => ["A.MP3"].filter fun n => glob_match ext n) = [] := by decide
  rw [resolve_audio_files, h]
  simp

/-- `string_le` is transitive. -/
theorem string_le_trans : ∀ a b c : String,
    string_le a b = true → string_le b c = true → string_le a c = true := by
  intro a b c hab hbc
  simp only [string_le, decide_eq_true_eq] at hab hbc ⊢
  exact le_trans hab hbc

/-- `string_le` is total. -/
theorem string_le_total : ∀ a b : String,
    (string_le a b || string_le b a) = true := by
  intro a b
  simp only [string_le, Bool.or_eq_true, decide_eq_true_eq]
  exact le_total a b

/-- C5 amended: in directory mode the set of files processed is exactly the
entries of the directory whose name matches one of the patterns `*.mp3`,
`*.wav`, `*.m4a`, `*.flac`, `*.aac` case-SENSITIVELY (lowercase extensions
only), and they are processed in lexicographic path order regardless of the
order in which the filesystem enumerates them. -/
theorem resolve_audio_files_spec (listing other : List String)
    (hperm : listing.Perm other) :
    (∀ x, x ∈ resolve_audio_files listing ↔
      x ∈ listing ∧ (audio_extensions.any fun ext => glob_match ext x) = true) ∧
    List.Sorted (fun a b => string_le a b = true) (resolve_audio_files listing) ∧
    resolve_audio_files listing = resolve_audio_files other := by
  refine ⟨?_, ?_, ?_⟩
  · intro x
    rw [resolve_audio_files, List.Perm.mem_iff (List.mergeSort_perm _ string_le)]
    simp only [List.mem_flatMap, List.mem_filter, List.any_eq_true]
    constructor
    · rintro ⟨ext, hext, hx, hm⟩
      exact ⟨hx, ext, hext, hm⟩
    · rintro ⟨hx, ext, hext, hm⟩
      exact ⟨ext, hext, hx, hm⟩
  · exact List.sorted_mergeSort string_le_trans string_le_total _
  · have hflat : (audio_extensions.flatMap
        fun ext => listing.filter fun n => glob_match ext n).Perm
        (audio_extensions.flatMap fun ext => other.filter fun n => glob_match ext n) := by
      induction audio_extensions with
      | nil => simp
      | cons e t ih =>
        simp only [List.flatMap_cons]
        exact List.Perm.append (hperm.filter _) ih
    haveI : IsAntisymm String fun a b => string_le a b = true := by
      constructor
      intro a b hab hba
      simp only [string_le, decide_eq_true_eq] at hab hba
      exact le_antisymm hab hba
    have h1 := List.mergeSort_perm
      (audio_extensions.flatMap fun ext => listing.filter fun n => glob_match ext n)
      string_le
    have h2 := List.mergeSort_perm
      (audio_extensions.flatMap fun ext => other.filter fun n => glob_match ext n)
      string_le
    refine List.eq_of_perm_of_sorted ?_
      (List.sorted_mergeSort string_le_trans string_le_total _)
      (List.sorted_mergeSort string_le_trans string_le_total _)
    rw [resolve_audio_files, resolve_audio_files]
    exact (h1.trans hflat).trans h2.symm

/-- C5 witness: two enumeration orders of the same directory resolve to the
same sorted list of matching files. -/
theorem resolve_audio_files_spec_witness :
    (["b.mp3", "a.wav", "x.txt"] : List String).Perm ["x.txt", "a.wav", "b.mp3"] ∧
    ((∀ x, x ∈ resolve_audio_files ["b.mp3", "a.wav", "x.txt"] ↔
      x ∈ (["b.mp3", "a.wav", "x.txt"] : List String) ∧
        (audio_extensions.any fun ext => glob_match ext x) = true) ∧
    List.Sorted (fun a b => string_le a b = true)
      (resolve_audio_files ["b.mp3", "a.wav", "x.txt"]) ∧
    resolve_audio_files ["b.mp3", "a.wav", "x.txt"]
      = resolve_audio_files ["x.txt", "a.wav", "b.mp3"]) :=
  ⟨by decide, resolve_audio_files_spec ["b.mp3", "a.wav", "x.txt"]
    ["x.txt", "a.wav", "b.mp3"] (by decide)⟩

/-! ## Pipeline orchestrator (`process_media.py`) -/

/-- Inputs of one `process_media.py` run: whether the input path exists
(line 65), whether the output-dir flag was passed (line 73), the three skip
flags, the success of each `run_script` call, and — for the two sub-scripts
that create their own output directory — whether an invoked run got far
enough to create it. -/
structure PipelineArgs where
  inputExists : Bool
  outputDirArg : Bool
  skipVideoConversion : Bool
  skipCutting : Bool
  skipTranscription : Bool
  stage1ok : Bool
  stage2ok : Bool
  stage3ok : Bool
  stage2dir : Bool
  stage3dir : Bool
deriving Repr, DecidableEq

/-- Observable outcome of one `process_media.py` run: exit code, whether the
`-o` output directory was created (line 75), which stage scripts were
invoked, whether stage 1's audio file was written, and whether the chunk /
transcript directories (created only by their own stage's script) exist. -/
structure PipelineResult where
  exitCode : Nat
  outputDirCreated : Bool
  stage1Invoked : Bool
  stage2Invoked : Bool
  stage3Invoked : Bool
  audioFileWritten : Bool
  chunksDirCreated : Bool
  transcriptsDirCreated : Bool
deriving Repr, DecidableEq

/-- Model of `process_media.py main` (lines 26–157): validate the input path
(exit 1 before any side effect if missing), create the `-o` directory if
given, then run the three stages in order, each skippable, exiting with
code 1 at the first failing stage without invoking any later stage.  A
stage's own output directory exists only if that stage's script ran
(`chunksDirCreated`, `transcriptsDirCreated` use the per-run oracles
`stage2dir` / `stage3dir`). -/
def process_media_main (a : PipelineArgs) : PipelineResult :=
  if !a.inputExists then ⟨1, false, false, false, false, false, false, false⟩
  else
    let outDir := a.outputDirArg
    if !a.skipVideoConversion && !a.stage1ok then
      ⟨1, outDir, true, false, false, false, false, false⟩
    else
      let audioW := !a.skipVideoConversion
      if !a.skipCutting && !a.stage2ok then
        ⟨1, outDir, !a.skipVideoConversion, true, false, audioW, a.stage2dir, false⟩
      else
        let chunksD := !a.skipCutting && a.stage2dir
        if !a.skipTranscription && !a.stage3ok then
          ⟨1, outDir, !a.skipVideoConversion, !a.skipCutting, true, audioW, chunksD,
            a.stage3dir⟩
        else
          ⟨0, outDir, !a.skipVideoConversion, !a.skipCutting, !a.skipTranscription,
            audioW, chunksD, !a.skipTranscription && a.stage3dir⟩

/-- C8: the orchestrator is fail-fast.  If stage 1 runs and fails, stages 2
and 3 are never invoked, their output directories are never created, and the
exit code is 1; if stage 2 runs and fails, stage 3 is never invoked and
stage 1's already-written audio file is not rolled back; if stage 3 runs and
fails, the exit code is 1 and the outputs of stages 1 and 2 are kept; and if
every non-skipped stage succeeds the exit code is 0. -/
theorem orchestrator_fail_fast (a : PipelineArgs) (h : a.inputExists = true) :
    (a.skipVideoConversion = false → a.stage1ok = false →
      (process_media_main a).exitCode = 1 ∧
      (process_media_main a).stage2Invoked = false ∧
      (process_media_main a).stage3Invoked = false ∧
      (process_media_main a).chunksDirCreated = false ∧
      (process_media_main a).transcriptsDirCreated = false) ∧
    (a.skipCutting = false → a.stage2ok = false →
      (a.skipVideoConversion = true ∨ a.stage1ok = true) →
      (process_media_main a).exitCode = 1 ∧
      (process_media_main a).stage3Invoked = false ∧
      (process_media_main a).transcriptsDirCreated = false ∧
      (process_media_main a).audioFileWritten = !a.skipVideoConversion) ∧
    (a.skipTranscription = false → a.stage3ok = false →
      (a.skipVideoConversion = true ∨ a.stage1ok = true) →
      (a.skipCutting = true ∨ a.stage2ok = true) →
      (process_media_main a).exitCode = 1 ∧
      (process_media_main a).audioFileWritten = !a.skipVideoConversion ∧
      (process_media_main a).chunksDirCreated = (!a.skipCutting && a.stage2dir)) ∧
    ((a.skipVideoConversion = true ∨ a.stage1ok = true) →
      (a.skipCutting = true ∨ a.stage2ok = true) →
      (a.skipTranscription = true ∨ a.stage3ok = true) →
      (process_media_main a).exitCode = 0) := by
  obtain ⟨ie, od, sv, sc, st, s1, s2, s3, d2, d3⟩ := a
  simp only at h
  subst h
  cases sv <;> cases sc <;> cases st <;> cases s1 <;> cases s2 <;> cases s3 <;>
    simp [process_media_main]

/-- C8 witness: stage 1 fails on an existing input with no stage skipped. -/
theorem orchestrator_fail_fast_witness :
    (PipelineArgs.mk true false false false false false true true true true).inputExists
        = true ∧
    (((PipelineArgs.mk true false false false false false true true true
          true).skipVideoConversion = false →
      (PipelineArgs.mk true false false false false false true true true
          true).stage1ok = false →
      (process_media_main
          (PipelineArgs.mk true false false false false false true true true
            true)).exitCode = 1 ∧
      (process_media_main
          (PipelineArgs.mk true false false false false false true true true
            true)).stage2Invoked = false ∧
      (process_media_main
          (PipelineArgs.mk true false false false false false true true true
            true)).stage3Invoked = false ∧
      (process_media_main
          (PipelineArgs.mk true false false false false false true true true
            true)).chunksDirCreated = false ∧
      (process_media_main
          (PipelineArgs.mk true false false false false false true true true
            true)).transcriptsDirCreated = false) ∧
    ((PipelineArgs.mk true false false false false false true true true
          true).skipCutting = false →
      (PipelineArgs.mk true false false false false false true true true
          true).stage2ok = false →
      ((PipelineArgs.mk true false false false false false true true true
          true).skipVideoConversion = true ∨
        (PipelineArgs.mk true false false false false false true true true
          true).stage1ok = true) →
      (process_media_main
          (PipelineArgs.mk true false false false false false true true true
            true)).exitCode = 1 ∧
      (process_media_main
          (PipelineArgs.mk true false false false false false true true true
            true)).stage3Invoked = false ∧
      (process_media_main
          (PipelineArgs.mk true false false false false false true true true
            true)).transcriptsDirCreated = false ∧
      (process_media_main
          (PipelineArgs.mk true false false false false false true true true
            true)).audioFileWritten
        = !(PipelineArgs.mk true false false false false false true true true
            true).skipVideoConversion) ∧
    ((PipelineArgs.mk true false false false false false true true true
          true).skipTranscription = false →
      (PipelineArgs.mk true false false false false false true true true
          true).stage3ok = false →
      ((PipelineArgs.mk true false false false false false true true true
          true).skipVideoConversion = true ∨
        (PipelineArgs.mk true false false false false false true true true
          true).stage1ok = true) →
      ((PipelineArgs.mk true false false false false false true true true
          true).skipCutting = true ∨
        (PipelineArgs.mk true false false false false false true true true
          true).stage2ok = true) →
      (process_media_main
          (PipelineArgs.mk true false false false false false true true true
            true)).exitCode = 1 ∧
      (process_media_main
          (PipelineArgs.mk true false false false false false true true true
            true)).audioFileWritten
        = !(PipelineArgs.mk true false false false false false true true true
            true).skipVideoConversion ∧
      (process_media_main
          (PipelineArgs.mk true false false false false false true true true
            true)).chunksDirCreated
        = ((!(PipelineArgs.mk true false false false false false true true true
              true).skipCutting) &&
            (PipelineArgs.mk true false false false false false true true true
              true).stage2dir)) ∧
    (((PipelineArgs.mk true false false false false false true true true
          true).skipVideoConversion = true ∨
       (PipelineArgs.mk true false false false false false true true true
          true).stage1ok = true) →
      ((PipelineArgs.mk true false false false false false true true true
          true).skipCutting = true ∨
        (PipelineArgs.mk true false false false false false true true true
          true).stage2ok = true) →
      ((PipelineArgs.mk true false false false false false true true true
          true).skipTranscription = true ∨
        (PipelineArgs.mk true false false false false false true true true
          true).stage3ok = true) →
      (process_media_main
          (PipelineArgs.mk true false false false false false true true true
            true)).exitCode = 0)) :=
  ⟨rfl, orchestrator_fail_fast
    (PipelineArgs.mk true false false false false false true true true true) rfl⟩

/-- C9: a missing input path makes each of the chunker, the converter and the
orchestrator fail immediately with no side effects: no output directory
created, no file written, no prompt shown, no external tool invoked, and no
pipeline stage run. -/
theorem missing_input_no_side_effects
    (mkdirOk : Bool) (load : Option Nat) (chunk_ms : Nat) (exportOk : Nat → Bool)
    (outputExists : Bool) (response : String) (ffmpeg : Option Bool)
    (a : PipelineArgs) (ha : a.inputExists = false) :
    cut_audio_file false mkdirOk load chunk_ms exportOk
        = ⟨false, false, [], [], 0, 0⟩ ∧
    convert_video_to_audio false outputExists response ffmpeg
        = ⟨false, false, false, false⟩ ∧
    process_media_main a = ⟨1, false, false, false, false, false, false, false⟩ := by
  refine ⟨rfl, rfl, ?_⟩
  unfold process_media_main
  rw [ha]
  rfl

/-- C9 witness at concrete oracles. -/
theorem missing_input_no_side_effects_witness :
    (PipelineArgs.mk false true false false false true true true true
        true).inputExists = false ∧
    (cut_audio_file false true (some 90000) 600000 (fun _ => true)
        = ⟨false, false, [], [], 0, 0⟩ ∧
    convert_video_to_audio false true "y" (some true)
        = ⟨false, false, false, false⟩ ∧
    process_media_main
        (PipelineArgs.mk false true false false false true true true true true)
        = ⟨1, false, false, false, false, false, false, false⟩) :=
  ⟨rfl, missing_input_no_side_effects true (some 90000) 600000 (fun _ => true)
    true "y" (some true)
    (PipelineArgs.mk false true false false false true true true true true) rfl⟩

end SpeechScripts
